import Mathlib

/-!
Verification of the AgentOS core against its specification.

The subsystems under proof are embedded shallowly from the Rust sources:
the security-gated agent pipeline (src/pipeline.rs), the durable kernel's
cross-store transactions (src/kernel/mod.rs), the embedding index and
semantic router (src/embedding/mod.rs, src/routing/mod.rs), the form
filler (src/routing/form_filler.rs), and the librarian's curation prompt
builder (src/librarian/prompt.rs).

Components the repository does not ship in source form (the kernel's
store submodules and the security resolver's own module) are modelled
from the specification; each such definition carries a doc comment
starting with "Modelled from the spec:".
-/

namespace AgentOS

/-! ### Association-list lookup

Rust keeps these tables in `HashMap`s / `Vec`s; lookups are modelled over
association lists, first match wins. -/

def lookupList {α : Type} (l : List (String × α)) (key : String) : Option α :=
  (l.find? (fun e => e.1 == key)).map Prod.snd

/-! ### Security resolver -/

/-- Modelled from the spec: the `SecurityResolver` module (`crate::security`)
is not under `src/`; per §4.5 it is compiled from configuration as a
profile → reachable-listener table. -/
structure SecurityResolver where
  profiles : List (String × List String)
deriving Repr, DecidableEq

/-- Modelled from the spec (§4.5): `can_reach(P, L) = (L ∈ P.allowed)`; an
empty allow-list means no access; an unknown profile fails closed. -/
def SecurityResolver.can_reach (r : SecurityResolver) (profile target : String) : Bool :=
  match lookupList r.profiles profile with
  | some allowed => allowed.contains target
  | none => false

/-! ### WAL entries -/

/-- WAL entry types (src/kernel/wal.rs is not under `src/`; the ten types
are fixed by §6.2 and by the `wal::EntryType` uses in src/kernel/mod.rs). -/
inductive EntryType where
  | ThreadInitRoot
  | ThreadExtend
  | ThreadPrune
  | ContextAllocate
  | ContextRelease
  | ContextSegmentAdd
  | ContextSegmentStatusSet
  | JournalDispatched
  | JournalDelivered
  | JournalFailed
deriving Repr, DecidableEq

/-- Modelled from the spec: a WAL record is `(entry_type, opaque payload)`
(§3); the null-separated UTF-8 payload fields of §6.2 are modelled as the
list of fields. -/
structure WalEntry where
  etype : EntryType
  payload : List String
deriving Repr, DecidableEq

/-! ### Thread table -/

/-- Result of pruning a thread; `target` is the parent chain the prune
returns to (src/kernel/mod.rs tests check `prune.target = "org"`). -/
structure PruneResult where
  target : String
deriving Repr, DecidableEq

/-- Modelled from the spec: `src/kernel/thread_table.rs` is not under
`src/`. §3: a thread is a dotted call-chain string identified by a stable
UUID; `extend` appends `.listener` under a fresh UUID; `prune` removes the
deepest segment, returning the parent; the root has no parent. Fresh UUIDs
are modelled by a counter. -/
structure ThreadTable where
  chains : List (String × String)
  next : Nat
deriving Repr, DecidableEq

/-- The parent of a dotted chain: everything before the last dot, `none`
for a chain with no dot (the root has no parent, §3). -/
def parentChain (chain : String) : Option String :=
  let cs := chain.toList
  match cs.reverse.findIdx? (fun c => c == '.') with
  | some i => some (String.mk (cs.take (cs.length - i - 1)))
  | none => none

/-- Modelled from the spec (§4.2): `peek_prune(uuid)` computes what a prune
would return without applying it. -/
def ThreadTable.peek_prune (t : ThreadTable) (uuid : String) : Option PruneResult :=
  match lookupList t.chains uuid with
  | some chain => (parentChain chain).map (fun p => ⟨p⟩)
  | none => none

/-- Modelled from the spec (§3): apply the prune, removing the chain named
by the UUID. -/
def ThreadTable.prune_for_response (t : ThreadTable) (uuid : String) :
    Option PruneResult × ThreadTable :=
  match t.peek_prune uuid with
  | some r => (some r, { t with chains := t.chains.filter (fun e => e.1 != uuid) })
  | none => (none, t)

/-- Modelled from the spec (§3): `extend(parent_uuid, listener)` creates a
child chain whose string appends `.listener` and whose UUID is fresh. The
spec gives `extend` the precondition that the parent exists; on a missing
parent this model leaves the table unchanged and still hands back a fresh
UUID. -/
def ThreadTable.extend_chain (t : ThreadTable) (parent listener : String) :
    String × ThreadTable :=
  let uuid := "uuid-" ++ toString t.next
  match lookupList t.chains parent with
  | some chain =>
    (uuid, { chains := t.chains ++ [(uuid, chain ++ "." ++ listener)], next := t.next + 1 })
  | none => (uuid, { t with next := t.next + 1 })

/-! ### Context store (thread-level allocation) -/

/-- Modelled from the spec: `src/kernel/context_store.rs` is not under
`src/`. For the kernel transactions only the per-thread allocation matters:
which thread UUIDs currently own a context. -/
structure ContextStore where
  allocated : List String
deriving Repr, DecidableEq

/-- Modelled from the spec: allocate a context for a thread; repeated
dispatches on one thread keep a single context (the kernel tests dispatch
three messages on the root thread). -/
def ContextStore.create (c : ContextStore) (tid : String) : ContextStore :=
  if c.allocated.contains tid then c else { allocated := c.allocated ++ [tid] }

/-- Modelled from the spec: release the context owned by a thread. -/
def ContextStore.release (c : ContextStore) (tid : String) : ContextStore :=
  { allocated := c.allocated.filter (fun t => t != tid) }

/-! ### Journal -/

/-- Journal entry status (§3: status ∈ \x7bDispatched, Delivered, Failed\x7d). -/
inductive MessageStatus where
  | Dispatched
  | Delivered
  | Failed
deriving Repr, DecidableEq

/-- Modelled from the spec (§3): a journal entry keyed by message-id with
fields (from, to, thread_id, status). -/
structure JournalEntry where
  thread_id : String
  msg_from : String
  msg_to : String
  status : MessageStatus
deriving Repr, DecidableEq

/-- Modelled from the spec: `src/kernel/journal.rs` is not under `src/`;
a message-by-ID table. -/
structure Journal where
  entries : List (String × JournalEntry)
deriving Repr, DecidableEq

/-- Modelled from the spec (§3): record a dispatch under the message-id,
status `Dispatched`; an entry is created per id (insert replaces). -/
def Journal.log_dispatch_simple (j : Journal) (mid tid mfrom mto : String) : Journal :=
  { entries := (j.entries.filter (fun e => e.1 != mid)) ++
      [(mid, ⟨tid, mfrom, mto, MessageStatus.Dispatched⟩)] }

/-- Modelled from the spec (§9 open question (i), resolved by the source's
`mark_delivered_by_thread`): every entry on the given thread advances to
`Delivered`. -/
def Journal.mark_delivered_by_thread (j : Journal) (tid : String) : Journal :=
  { entries := j.entries.map (fun e =>
      if e.2.thread_id == tid then (e.1, { e.2 with status := MessageStatus.Delivered }) else e) }

/-! ### Kernel cross-store transactions (src/kernel/mod.rs) -/

/-- The kernel: WAL plus the three stores (src/kernel/mod.rs:25). Disk
paths and I/O failure are outside the model. -/
structure Kernel where
  wal : List WalEntry
  threads : ThreadTable
  contexts : ContextStore
  journal : Journal
deriving Repr, DecidableEq

/-- The three-entry WAL batch built by `Kernel::dispatch_message`
(src/kernel/mod.rs:114-135): `ThreadExtend` with payload `thread_id, to`,
`ContextAllocate` with `thread_id`, `JournalDispatched` with
`message_id, thread_id, from, to`. -/
def dispatchBatch (tid mto mid mfrom : String) : List WalEntry :=
  [⟨EntryType.ThreadExtend, [tid, mto]⟩,
   ⟨EntryType.ContextAllocate, [tid]⟩,
   ⟨EntryType.JournalDispatched, [mid, tid, mfrom, mto]⟩]

/-- `Kernel::dispatch_message` (src/kernel/mod.rs:106): build the batch,
append it to the WAL, then apply the three in-memory mutators in order and
return the new thread UUID. No precondition is checked. -/
def Kernel.dispatch_message (k : Kernel) (mfrom mto tid mid : String) : String × Kernel :=
  let wal := k.wal ++ dispatchBatch tid mto mid mfrom
  let et := k.threads.extend_chain tid mto
  let contexts := k.contexts.create tid
  let journal := k.journal.log_dispatch_simple mid tid mfrom mto
  (et.1, { wal := wal, threads := et.2, contexts := contexts, journal := journal })

/-- The three-entry WAL batch built by `Kernel::prune_thread`
(src/kernel/mod.rs:83-93), each carrying the thread id. -/
def pruneBatch (tid : String) : List WalEntry :=
  [⟨EntryType.ThreadPrune, [tid]⟩,
   ⟨EntryType.ContextRelease, [tid]⟩,
   ⟨EntryType.JournalDelivered, [tid]⟩]

/-- `Kernel::prune_thread` (src/kernel/mod.rs:72): `peek_prune` first; if
it is `None` return `Ok(None)` with nothing written and nothing applied;
otherwise append the batch to the WAL, then apply the three mutators. -/
def Kernel.prune_thread (k : Kernel) (tid : String) : Option PruneResult × Kernel :=
  match k.threads.peek_prune tid with
  | none => (none, k)
  | some _ =>
    let wal := k.wal ++ pruneBatch tid
    let pr := k.threads.prune_for_response tid
    let contexts := k.contexts.release tid
    let journal := k.journal.mark_delivered_by_thread tid
    (pr.1, { wal := wal, threads := pr.2, contexts := contexts, journal := journal })

/-! ### Agent pipeline (src/pipeline.rs) -/

/-- `AgentPipeline` (src/pipeline.rs:27): inner pipeline, kernel, security
resolver. The inner rust-pipeline is an external collaborator (§1); its
`inject` accepts raw message bytes for validation and handler dispatch,
modelled as the list of messages handed to it — a handler is only ever
invoked on a message recorded here. Raw bytes are modelled as naturals. -/
structure AgentPipeline where
  injected : List (List Nat)
  kernel : Kernel
  security : SecurityResolver
deriving Repr, DecidableEq

/-- `AgentPipeline::inject_checked` (src/pipeline.rs:112): security gate
first — if `can_reach(profile, target)` fails, return the security error;
otherwise hand the raw message to the inner pipeline. -/
def AgentPipeline.inject_checked (p : AgentPipeline) (raw : List Nat)
    (_thread_id profile target : String) : Except String Unit × AgentPipeline :=
  if !(p.security.can_reach profile target) then
    (Except.error ("security: profile '" ++ profile ++ "' cannot reach listener '"
      ++ target ++ "'"), p)
  else
    (Except.ok (), { p with injected := p.injected ++ [raw] })

/-- `AgentPipeline::inject_raw` (src/pipeline.rs:134): hand the raw message
to the inner pipeline directly, bypassing security. -/
def AgentPipeline.inject_raw (p : AgentPipeline) (raw : List Nat) :
    Except String Unit × AgentPipeline :=
  (Except.ok (), { p with injected := p.injected ++ [raw] })

/-! ### Embedding index (src/embedding/mod.rs) -/

/-- A search result (src/embedding/mod.rs:22): tool name and similarity
score. The Rust score is an `f32`; scores are modelled in ℚ. -/
structure MatchResult where
  name : String
  score : Rat
deriving Repr, DecidableEq

/-- `EmbeddingIndex` (src/embedding/mod.rs:48): entries `(name, embedding)`
and the minimum similarity threshold. -/
structure EmbeddingIndex where
  entries : List (String × List Rat)
  threshold : Rat
deriving Repr, DecidableEq

/-- `EmbeddingIndex::new` (src/embedding/mod.rs:55). -/
def EmbeddingIndex.new (threshold : Rat) : EmbeddingIndex :=
  { entries := [], threshold := threshold }

/-- `EmbeddingIndex::register` (src/embedding/mod.rs:63): drop any existing
entry with the same name, then push the new one. -/
def EmbeddingIndex.register (idx : EmbeddingIndex) (name : String) (embedding : List Rat) :
    EmbeddingIndex :=
  { idx with entries := (idx.entries.filter (fun e => e.1 != name)) ++ [(name, embedding)] }

/-- `EmbeddingIndex::remove` (src/embedding/mod.rs:70). -/
def EmbeddingIndex.remove (idx : EmbeddingIndex) (name : String) : EmbeddingIndex :=
  { idx with entries := idx.entries.filter (fun e => e.1 != name) }

/-- One step of Rust's `Iterator::max_by`, which keeps the last of equally
maximal elements. -/
def maxStep (acc : Option MatchResult) (r : MatchResult) : Option MatchResult :=
  match acc with
  | none => some r
  | some m => if r.score < m.score then some m else some r

/-- `Iterator::max_by` over a candidate list (ties resolved towards the
later element, as in Rust). -/
def maxByLast (l : List MatchResult) : Option MatchResult :=
  l.foldl maxStep none

/-- `EmbeddingIndex::best_match` (src/embedding/mod.rs:119): filter by the
allow-list when it is non-empty, score each candidate, keep scores at or
above the threshold, take the maximum. The Rust scoring function is
`cosine_similarity` over IEEE `f32` (src/embedding/mod.rs:33); machine
floating point does not embed, so the search is stated over an arbitrary
rational scoring function `sim` standing for that fixed function — the
properties proved below hold for every `sim`, in particular the cosine. -/
def EmbeddingIndex.best_match (idx : EmbeddingIndex) (sim : List Rat → List Rat → Rat)
    (query : List Rat) (allowed : List String) : Option MatchResult :=
  let filter_active := !allowed.isEmpty
  maxByLast (((idx.entries.filter (fun e => !filter_active || allowed.contains e.1)).map
      (fun e => ⟨e.1, sim query e.2⟩)).filter
      (fun r => decide (idx.threshold ≤ r.score)))

/-- `EmbeddingIndex::search_filtered` (src/embedding/mod.rs:82): an empty
allow-list returns no match (security: empty allow-list = no access). -/
def EmbeddingIndex.search_filtered (idx : EmbeddingIndex) (sim : List Rat → List Rat → Rat)
    (query : List Rat) (allowed : List String) : Option MatchResult :=
  if allowed.isEmpty then none
  else idx.best_match sim query allowed

/-- A register or remove step on the index, for stating invariants over
arbitrary operation sequences. -/
inductive IndexOp where
  | reg (name : String) (embedding : List Rat)
  | rem (name : String)
deriving Repr, DecidableEq

/-- Apply one `IndexOp`. -/
def applyOp (idx : EmbeddingIndex) : IndexOp → EmbeddingIndex
  | IndexOp.reg name em => idx.register name em
  | IndexOp.rem name => idx.remove name

/-- Apply a sequence of register/remove operations. -/
def applyOps (ops : List IndexOp) (idx : EmbeddingIndex) : EmbeddingIndex :=
  ops.foldl applyOp idx

/-- The embedding stored under a name (first entry wins). -/
def lookupEmb (idx : EmbeddingIndex) (name : String) : Option (List Rat) :=
  (idx.entries.find? (fun e => e.1 == name)).map Prod.snd

/-! ### String utilities shared by the form filler (src/routing/form_filler.rs) -/

/-- ASCII whitespace for `str::trim` (the inputs under proof use no exotic
Unicode whitespace). -/
def isWsChar (c : Char) : Bool :=
  c == ' ' || c == '\n' || c == '\t' || c == '\r'

/-- `str::trim` on the character list. -/
def trimChars (cs : List Char) : List Char :=
  ((cs.dropWhile isWsChar).reverse.dropWhile isWsChar).reverse

/-- `str::strip_prefix`: drop `p` from the front when present. -/
def dropPre (p s : List Char) : Option (List Char) :=
  if p.isPrefixOf s then some (s.drop p.length) else none

/-- `str::strip_suffix`: drop `p` from the back when present. -/
def dropSuf (p s : List Char) : Option (List Char) :=
  if p.isSuffixOf s then some (s.take (s.length - p.length)) else none

/-- `strip_xml_fencing` (src/routing/form_filler.rs:322): remove a leading
code fence (with or without the `xml` tag) and a trailing fence, trimming
at each step exactly as the source does. -/
def strip_xml_fencing (text : String) : String :=
  let trimmed := trimChars text.toList
  match dropPre "```xml".toList trimmed with
  | some rest =>
    let r := trimChars rest
    String.mk (trimChars ((dropSuf "```".toList r).getD r))
  | none =>
    match dropPre "```".toList trimmed with
    | some rest =>
      let r := trimChars rest
      String.mk (trimChars ((dropSuf "```".toList r).getD r))
    | none => String.mk trimmed

/-- `validate_xml` (src/routing/form_filler.rs:339): non-empty after trim,
starts with `<`, starts with `<expected_root_tag`, ends with
`</expected_root_tag>`. Index arithmetic for the error message operates on
characters where the source uses bytes. -/
def validate_xml (xml expected_root_tag : String) : Except String Unit :=
  let trimmed := trimChars xml.toList
  if trimmed.isEmpty then Except.error "empty XML"
  else if trimmed.head? != some '<' then
    Except.error "not valid XML: doesn't start with '<'"
  else
    let expected_open := '<' :: expected_root_tag.toList
    let expected_close := ('<' :: '/' :: expected_root_tag.toList) ++ ['>']
    if !(expected_open.isPrefixOf trimmed) then
      match trimmed.findIdx? (fun c => c == '>' || c == ' ') with
      | some endi =>
        Except.error ("expected root tag <" ++ expected_root_tag ++ ">, got <"
          ++ String.mk ((trimmed.drop 1).take (endi - 1)) ++ ">")
      | none => Except.error ("expected root tag <" ++ expected_root_tag ++ ">")
    else if !(expected_close.isSuffixOf trimmed) then
      Except.error ("missing closing tag </" ++ expected_root_tag ++ ">")
    else Except.ok ()

/-! ### Form filler (src/routing/form_filler.rs) -/

/-- `MODEL_LADDER` (src/routing/form_filler.rs:62). -/
def MODEL_LADDER : List String := ["haiku", "haiku", "sonnet"]

/-- `model_for_attempt` (src/routing/form_filler.rs:311): index into the
ladder, falling back to `"sonnet"` beyond it. -/
def model_for_attempt (attempt : Nat) : String :=
  if h : attempt < MODEL_LADDER.length then MODEL_LADDER[attempt] else "sonnet"

/-- `build_fill_prompt` (src/routing/form_filler.rs:271). -/
def build_fill_prompt (intent tool_name tool_description xml_template : String) : String :=
  "Given the user's intent and a tool's XML template, produce a filled XML document that fulfills the intent. Use ONLY the tags shown in the template.\n\nIntent: \""
    ++ intent ++ "\"\n\nTool: " ++ tool_name ++ "\nDescription: " ++ tool_description
    ++ "\nXML Template:\n" ++ xml_template
    ++ "\n\nRespond with ONLY the filled XML. No explanation."

/-- `build_retry_prompt` (src/routing/form_filler.rs:290). -/
def build_retry_prompt (intent tool_name tool_description xml_template previous_error : String) :
    String :=
  "Your previous attempt failed: " ++ previous_error
    ++ "\n\nPlease try again. Given the user's intent and a tool's XML template, produce a filled XML document that fulfills the intent. Use ONLY the tags shown in the template.\n\nIntent: \""
    ++ intent ++ "\"\n\nTool: " ++ tool_name ++ "\nDescription: " ++ tool_description
    ++ "\nXML Template:\n" ++ xml_template
    ++ "\n\nRespond with ONLY the filled XML. No explanation."

/-- `FormFillResult` (src/routing/form_filler.rs:23). -/
inductive FormFillResult where
  | Success (tool_name filled_xml : String)
  | Failed (tool_name last_error : String)
deriving Repr, DecidableEq

/-- Outcome of one `LlmPool::complete` call as the form filler observes it
(src/routing/form_filler.rs:112-134): an API error, a response without a
text block, or the first text block. The HTTP pool (src/llm/client.rs) is
an external collaborator; a fill run is parametrised by the oracle
`llm : model → prompt → LlmOutcome`. -/
inductive LlmOutcome where
  | apiErr (e : String)
  | okNoText
  | okText (t : String)
deriving Repr, DecidableEq

/-- The retry loop of `CloudFormFiller::fill` (src/routing/form_filler.rs:88):
pick the ladder model for the attempt, build the initial or retry prompt,
call the LLM; on text, clean the fencing and validate — success returns the
cleaned XML, otherwise record the error and try again; exhausted attempts
return `Failed` with the last error. `fuel` is the count of remaining
attempts, so `fuel = max_retries - attempt`. -/
def fillLoop (llm : String → String → LlmOutcome)
    (intent tool_name tool_description xml_template payload_tag : String) :
    Nat → Nat → String → FormFillResult
  | _, 0, lastErr => FormFillResult.Failed tool_name lastErr
  | attempt, fuel + 1, lastErr =>
    let model := model_for_attempt attempt
    let prompt :=
      if attempt == 0 then build_fill_prompt intent tool_name tool_description xml_template
      else build_retry_prompt intent tool_name tool_description xml_template lastErr
    match llm model prompt with
    | LlmOutcome.okText t =>
      let cleaned := strip_xml_fencing t
      match validate_xml cleaned payload_tag with
      | Except.ok _ => FormFillResult.Success tool_name cleaned
      | Except.error e =>
        fillLoop llm intent tool_name tool_description xml_template payload_tag
          (attempt + 1) fuel e
    | LlmOutcome.okNoText =>
      fillLoop llm intent tool_name tool_description xml_template payload_tag
        (attempt + 1) fuel "LLM returned no text content"
    | LlmOutcome.apiErr e =>
      fillLoop llm intent tool_name tool_description xml_template payload_tag
        (attempt + 1) fuel ("LLM API error: " ++ e)

/-- `CloudFormFiller::fill` (src/routing/form_filler.rs:78): run the retry
loop from attempt 0 with an empty last error. -/
def cloud_fill (llm : String → String → LlmOutcome) (max_retries : Nat)
    (intent tool_name tool_description xml_template payload_tag : String) : FormFillResult :=
  fillLoop llm intent tool_name tool_description xml_template payload_tag 0 max_retries ""

/-! ### Semantic router (src/routing/mod.rs) -/

/-- `ToolMetadata` (src/routing/mod.rs:36). -/
structure ToolMetadata where
  description : String
  xml_template : String
  payload_tag : String
deriving Repr, DecidableEq

/-- `RouteDecision` (src/routing/mod.rs:44). -/
inductive RouteDecision where
  | ToolResult (tool_name result_xml : String)
  | ToolFailed (note : String)
  | Response
deriving Repr, DecidableEq

/-- `SemanticRouter::route` (src/routing/mod.rs:91): empty allow-list is a
`Response`; otherwise embed the text, search filtered by the allow-list,
and on a match run the form filler — `Success` becomes `ToolResult`,
`Failed` becomes `ToolFailed` with the note built from the tool name and
the last error; a match without metadata falls back to `Response`. The
embedding provider and the form-fill strategy are trait objects in the
source and appear here as the function parameters `embedFn` and
`filler`. -/
def route (embedFn : String → List Rat) (sim : List Rat → List Rat → Rat)
    (idx : EmbeddingIndex)
    (filler : String → String → String → String → String → FormFillResult)
    (tool_metadata : List (String × ToolMetadata)) (text : String)
    (allowed_tools : List String) : RouteDecision :=
  if allowed_tools.isEmpty then RouteDecision.Response
  else
    let query := embedFn text
    match idx.search_filtered sim query allowed_tools with
    | some m =>
      match lookupList tool_metadata m.name with
      | some meta =>
        match filler text m.name meta.description meta.xml_template meta.payload_tag with
        | FormFillResult.Success tool_name filled_xml =>
          RouteDecision.ToolResult tool_name filled_xml
        | FormFillResult.Failed tool_name last_error =>
          RouteDecision.ToolFailed
            ("Could not extract parameters for " ++ tool_name ++ ": " ++ last_error)
      | none => RouteDecision.Response
    | none => RouteDecision.Response

/-! ### Librarian curation prompt (src/librarian/prompt.rs) -/

/-- Segment status (§3; `SegmentStatus` lives in the context store module,
which is not under `src/`). -/
inductive SegmentStatus where
  | Active
  | Shelved
deriving Repr, DecidableEq

/-- Modelled from the spec (§3) and the field uses in
src/librarian/prompt.rs: a segment's metadata. The `f32` relevance is
modelled in ℚ. -/
structure SegmentMeta where
  id : String
  tag : String
  size : Nat
  status : SegmentStatus
  relevance : Rat
  created_at : Nat
deriving Repr, DecidableEq

/-- Modelled from the spec (§4.7) and the field uses in
src/librarian/prompt.rs: a thread's context inventory. -/
structure ContextInventory where
  thread_id : String
  segments : List SegmentMeta
  active_count : Nat
  shelved_count : Nat
  total_bytes : Nat
  active_bytes : Nat
deriving Repr, DecidableEq

/-- `Message` (src/llm/types.rs:31): role and content. -/
structure Message where
  role : String
  content : String
deriving Repr, DecidableEq

/-- UTF-8 byte length of a character list (Rust `str::len`). -/
def utf8Len (cs : List Char) : Nat :=
  (cs.map Char.utf8Size).sum

/-- The first `n` bytes of a UTF-8 string as characters: Rust's byte slice
`&s[..n]`, which panics — here `none` — when `n` does not fall on a
character boundary. -/
def takeBytes : Nat → List Char → Option (List Char)
  | 0, _ => some []
  | _ + 1, [] => none
  | n + 1, c :: cs =>
    if c.utf8Size ≤ n + 1 then (takeBytes (n + 1 - c.utf8Size) cs).map (fun r => c :: r)
    else none

/-- `truncate` (src/librarian/prompt.rs:179): the string itself when its
byte length is at most `max`, otherwise the byte slice `&s[..max]` — which
panics (modelled as `none`) when byte `max` is not a character boundary. -/
def truncate (s : String) (max : Nat) : Option String :=
  if utf8Len s.toList ≤ max then some s
  else (takeBytes max s.toList).map String.mk

/-- Two-digit zero-padded rendering of a number below 100. -/
def pad2 (n : Nat) : String :=
  if n < 10 then "0" ++ toString n else toString n

/-- Rendering of the relevance with Rust's `\x7b:.2\x7d` float format,
modelled on the exact rational (two decimal digits; relevance lies in
[0, 1], §3). -/
def formatRel (q : Rat) : String :=
  let cents : Int := (q * 100).floor
  toString (cents / 100) ++ "." ++ pad2 ((cents % 100).toNat)

/-- One `<segment …/>` inventory line of the curation prompt
(src/librarian/prompt.rs:57). -/
def segLine (seg : SegmentMeta) : String :=
  "    <segment id=\"" ++ seg.id ++ "\" tag=\"" ++ seg.tag ++ "\" size=\""
    ++ toString seg.size ++ "\" status=\""
    ++ (match seg.status with
        | SegmentStatus.Active => "active"
        | SegmentStatus.Shelved => "shelved")
    ++ "\" relevance=\"" ++ formatRel seg.relevance ++ "\"/>\n"

/-- One `<message …>` line of the curation prompt
(src/librarian/prompt.rs:42): the content truncated to 500 bytes; the
panic in `truncate` propagates. -/
def msgLine (m : Message) : Option String :=
  (truncate m.content 500).map (fun t =>
    "    <message role=\"" ++ m.role ++ "\">" ++ t ++ "</message>\n")

/-- The `<summary …/>` line of the curation prompt
(src/librarian/prompt.rs:64). -/
def summaryLine (inv : ContextInventory) : String :=
  "  <summary active=\"" ++ toString inv.active_count ++ "\" shelved=\""
    ++ toString inv.shelved_count ++ "\" active_bytes=\"" ++ toString inv.active_bytes
    ++ "\" total_bytes=\"" ++ toString inv.total_bytes ++ "\"/>\n"

/-- `build_curation_prompt` (src/librarian/prompt.rs:29): the
`<CurationRequest>` document with budget, incoming messages (each content
truncated via `truncate`, whose panic propagates as `none`), inventory
lines and summary. -/
def build_curation_prompt (inventory : ContextInventory) (incoming_messages : List Message)
    (token_budget : Nat) : Option String :=
  (incoming_messages.mapM msgLine).map (fun lines =>
    "<CurationRequest>\n"
      ++ "  <token_budget>" ++ toString token_budget ++ "</token_budget>\n"
      ++ "  <incoming_messages>\n" ++ String.join lines ++ "  </incoming_messages>\n"
      ++ "  <inventory>\n" ++ String.join (inventory.segments.map segLine)
      ++ "  </inventory>\n"
      ++ summaryLine inventory
      ++ "</CurationRequest>")

/-! ### Spec-side observation functions

These two definitions follow the specification's words, not the source;
they exist to compare the source's behaviour against the spec. -/

/-- Root tag of an XML document, following the spec's words for the
form-fill closure invariant (§8): the tag name immediately after the
leading `<` of the trimmed document, up to the first delimiter. -/
def specRootTag (s : String) : Option String :=
  match trimChars s.toList with
  | '<' :: rest => some (String.mk (rest.takeWhile (fun c => !(c == '>' || c == ' ' || c == '/'))))
  | _ => none

/-- Cost tier of a model name, following the spec's words for the model
ladder (§4.6: the first attempt uses the cheapest model, later attempts
escalate one tier; haiku below sonnet below opus). -/
def modelTier (model : String) : Nat :=
  if model == "haiku" then 0
  else if model == "sonnet" then 1
  else if model == "opus" then 2
  else 0

/-! ### Concrete fixtures for witnesses and counterexamples -/

/-- A kernel with empty WAL and empty stores. -/
def kernel0 : Kernel :=
  { wal := [], threads := { chains := [], next := 0 }, contexts := { allocated := [] },
    journal := { entries := [] } }

/-- The `public` profile of the pipeline tests (src/pipeline.rs:315):
allowed listeners `[echo]`. -/
def sec0 : SecurityResolver := { profiles := [("public", ["echo"])] }

/-- A pipeline over `kernel0` with the `public`-only resolver. -/
def pipe0 : AgentPipeline := { injected := [], kernel := kernel0, security := sec0 }

/-! ### Claim theorems -/

/-- Claim C1: whenever `can_reach(profile, target)` is false,
`inject_checked` returns the security error, the kernel is untouched, and
the message is not handed to the inner pipeline, so no handler runs. -/
theorem c1_inject_checked_denied (p : AgentPipeline) (raw : List Nat)
    (tid profile target : String)
    (h : p.security.can_reach profile target = false) :
    p.inject_checked raw tid profile target =
      (Except.error ("security: profile '" ++ profile ++ "' cannot reach listener '"
        ++ target ++ "'"), p) ∧
    (p.inject_checked raw tid profile target).2.kernel = p.kernel ∧
    (p.inject_checked raw tid profile target).2.injected = p.injected := by
  simp [AgentPipeline.inject_checked, h]

/-- Witness for C1 at a concrete denied inject: the `public` profile cannot
reach `sink`, and the checked inject is rejected with the state intact. -/
theorem c1_witness :
    pipe0.security.can_reach "public" "sink" = false ∧
    pipe0.inject_checked [1, 2] "thread-2" "public" "sink" =
      (Except.error "security: profile 'public' cannot reach listener 'sink'", pipe0) :=
  ⟨by decide, (c1_inject_checked_denied pipe0 [1, 2] "thread-2" "public" "sink" (by decide)).1⟩

/-- Claim C9: `inject_raw` always forwards the raw message to the inner
pipeline and succeeds, and its behaviour is independent of the security
resolver — it never consults `can_reach`. -/
theorem c9_inject_raw_bypasses_security (p : AgentPipeline) (raw : List Nat) :
    p.inject_raw raw = (Except.ok (), { p with injected := p.injected ++ [raw] }) ∧
    (∀ sec : SecurityResolver,
      (AgentPipeline.inject_raw { p with security := sec } raw).1 = (p.inject_raw raw).1 ∧
      (AgentPipeline.inject_raw { p with security := sec } raw).2.injected =
        (p.inject_raw raw).2.injected) :=
  ⟨rfl, fun _ => ⟨rfl, rfl⟩⟩

/-- Counterexample to claim C3: dispatching under a parent thread that does
not exist in the thread table. The claim says the kernel fails before any
WAL entry is appended and applies no in-memory mutation; instead
`dispatch_message` appends the full three-entry batch and records the
journal entry. -/
theorem c3_counterexample :
    lookupList kernel0.threads.chains "nonexistent" = none ∧
    (kernel0.dispatch_message "console" "handler" "nonexistent" "m1").2.wal =
      dispatchBatch "nonexistent" "handler" "m1" "console" ∧
    (kernel0.dispatch_message "console" "handler" "nonexistent" "m1").2.wal ≠ [] ∧
    lookupList (kernel0.dispatch_message "console" "handler" "nonexistent" "m1").2.journal.entries
      "m1" ≠ none := by
  decide

/-- Claim C3 as amended: `dispatch_message` performs no precondition peek —
even when the parent thread is absent from the table or the message id is
already journalled, it appends its three-entry WAL batch (and then applies
the mutators); only `prune_thread` fails before the WAL write. -/
theorem c3_dispatch_appends_unconditionally (k : Kernel) (mfrom mto tid mid : String)
    (_h : lookupList k.threads.chains tid = none ∨ lookupList k.journal.entries mid ≠ none) :
    (k.dispatch_message mfrom mto tid mid).2.wal = k.wal ++ dispatchBatch tid mto mid mfrom := by
  simp [Kernel.dispatch_message]

/-- Witness for the amended C3 at a concrete violated precondition. -/
theorem c3_witness :
    (lookupList kernel0.threads.chains "tX" = none ∨
      lookupList kernel0.journal.entries "mX" ≠ none) ∧
    (kernel0.dispatch_message "console" "worker" "tX" "mX").2.wal =
      kernel0.wal ++ dispatchBatch "tX" "worker" "mX" "console" :=
  ⟨Or.inl (by decide),
    c3_dispatch_appends_unconditionally kernel0 "console" "worker" "tX" "mX"
      (Or.inl (by decide))⟩

/-- Claim C4: when `peek_prune` returns `None`, `prune_thread` returns
`Ok(None)` with no WAL entry appended and the thread table, context store
and journal unchanged — the returned kernel is the input kernel. -/
theorem c4_prune_nothing_on_failed_peek (k : Kernel) (tid : String)
    (h : k.threads.peek_prune tid = none) :
    k.prune_thread tid = (none, k) := by
  simp [Kernel.prune_thread, h]

/-- Witness for C4 at a concrete unknown thread id. -/
theorem c4_witness :
    kernel0.threads.peek_prune "ghost" = none ∧
    kernel0.prune_thread "ghost" = (none, kernel0) :=
  ⟨by decide, c4_prune_nothing_on_failed_peek kernel0 "ghost" (by decide)⟩

/-- An LLM oracle that answers every fill prompt with an XML document whose
root tag extends the expected one. -/
def llm5 : String → String → LlmOutcome :=
  fun _ _ => LlmOutcome.okText "<ShellRequestX>hi</ShellRequest>"

/-- Claim C5 at the failing input: the form filler returns `Success`
although the filled XML's root tag is `ShellRequestX`, not the tool's
payload tag `ShellRequest` — `validate_xml` only compares a prefix, so a
longer root tag slips through (and the document is not even well formed:
`<ShellRequestX>` is never closed). -/
theorem c5_root_tag_mismatch_accepted :
    cloud_fill llm5 3 "run it" "shell" "Shell execution"
        "<ShellRequest><command/></ShellRequest>" "ShellRequest" =
      FormFillResult.Success "shell" "<ShellRequestX>hi</ShellRequest>" ∧
    validate_xml "<ShellRequestX>hi</ShellRequest>" "ShellRequest" = Except.ok () ∧
    specRootTag "<ShellRequestX>hi</ShellRequest>" = some "ShellRequestX" ∧
    "ShellRequestX" ≠ "ShellRequest" := by
  refine ⟨rfl, rfl, rfl, by decide⟩

/-- Counterexample to claim C6: the second attempt does not escalate — the
ladder starts `haiku, haiku`, so attempt 1 runs one tier *equal to*, not
one tier above, attempt 0, although the top tier is not yet reached. -/
theorem c6_counterexample :
    model_for_attempt 0 = "haiku" ∧
    model_for_attempt 1 = "haiku" ∧
    modelTier (model_for_attempt 0) < modelTier "sonnet" ∧
    modelTier (model_for_attempt 1) ≠ modelTier (model_for_attempt 0) + 1 := by
  refine ⟨rfl, rfl, by decide, by decide⟩

/-- Every attempt from index 2 on selects sonnet: index 2 hits the ladder's
last rung and later indices fall to the `"sonnet"` default. -/
lemma model_for_attempt_ge_two (n : Nat) : model_for_attempt (n + 2) = "sonnet" := by
  rcases n with _ | k
  · rfl
  · have h : ¬ (k + 1 + 2 < MODEL_LADDER.length) := by
      simp only [ MODEL_LADDER, List.length_cons, List.length_nil]
      omega
    simp [model_for_attempt, h]

/-- Claim C6 as amended: the first attempt uses the cheapest model (haiku);
the second attempt retries haiku; the third and every later attempt use
sonnet; across the ladder the tier never decreases. -/
theorem c6_model_ladder (i : Nat) :
    model_for_attempt 0 = "haiku" ∧
    model_for_attempt 1 = "haiku" ∧
    (2 ≤ i → model_for_attempt i = "sonnet") ∧
    modelTier (model_for_attempt i) ≤ modelTier (model_for_attempt (i + 1)) := by
  refine ⟨rfl, rfl, ?_, ?_⟩
  · intro hi
    obtain ⟨k, rfl⟩ : ∃ k, i = k + 2 := ⟨i - 2, by omega⟩
    exact model_for_attempt_ge_two k
  · rcases i with _ | _ | k
    · decide
    · decide
    · have h1 := model_for_attempt_ge_two k
      have h2 : model_for_attempt (k + 2 + 1) = "sonnet" := model_for_attempt_ge_two (k + 1)
      rw [h1, h2]

/-- Witness for the amended C6 at a concrete late attempt. -/
theorem c6_witness :
    (2 : Nat) ≤ 5 ∧ model_for_attempt 5 = "sonnet" :=
  ⟨by decide, (c6_model_ladder 5).2.2.1 (by decide)⟩

/-- An LLM oracle that fails every call with a transport error. -/
def llm7 : String → String → LlmOutcome :=
  fun _ _ => LlmOutcome.apiErr "connection refused"

/-- A scoring function awarding every pair the maximal score. -/
def sim1 : List Rat → List Rat → Rat := fun _ _ => 1

/-- An index holding only the `shell` tool, with threshold 0. -/
def idx7 : EmbeddingIndex := { entries := [("shell", [1])], threshold := 0 }

/-- Metadata table for the `shell` tool. -/
def meta7 : List (String × ToolMetadata) :=
  [("shell", { description := "Shell execution",
               xml_template := "<ShellRequest><command/></ShellRequest>",
               payload_tag := "ShellRequest" })]

/-- A cloud form filler over `llm7` with a single attempt. -/
def filler7 : String → String → String → String → String → FormFillResult :=
  fun intent tool desc tmpl tag => cloud_fill llm7 1 intent tool desc tmpl tag

/-- A provider embedding every text as the vector `[1]`. -/
def embed7 : String → List Rat := fun _ => [1]

/-- Counterexample to claim C7: when the form fill exhausts its attempts,
the `ToolFailed` note contains the filler's `last_error` verbatim —
including the raw LLM API error string — as its suffix. -/
theorem c7_counterexample :
    route embed7 sim1 idx7 filler7 meta7 "run ls" ["shell"] =
      RouteDecision.ToolFailed
        ("Could not extract parameters for shell: " ++ "LLM API error: connection refused") ∧
    List.isSuffixOf "LLM API error: connection refused".toList
      "Could not extract parameters for shell: LLM API error: connection refused".toList
      = true := by
  refine ⟨rfl, by decide⟩

/-- Claim C7 as amended: on an exhausted form fill the router returns
`ToolFailed` whose note is the fixed sentence
`Could not extract parameters for <tool>: ` followed by the form filler's
`last_error` — the internal error text is part of the note. -/
theorem c7_toolfailed_note_embeds_last_error (embedFn : String → List Rat)
    (sim : List Rat → List Rat → Rat) (idx : EmbeddingIndex)
    (filler : String → String → String → String → String → FormFillResult)
    (meta : List (String × ToolMetadata)) (text : String) (allowed : List String)
    (m : MatchResult) (md : ToolMetadata) (tn le : String)
    (h1 : idx.search_filtered sim (embedFn text) allowed = some m)
    (h2 : lookupList meta m.name = some md)
    (h3 : filler text m.name md.description md.xml_template md.payload_tag =
      FormFillResult.Failed tn le) :
    route embedFn sim idx filler meta text allowed =
      RouteDecision.ToolFailed ("Could not extract parameters for " ++ tn ++ ": " ++ le) := by
  have hne : allowed.isEmpty = false := by
    cases allowed with
    | nil => simp [EmbeddingIndex.search_filtered] at h1
    | cons a as => rfl
  simp [route, hne, h1, h2, h3]

/-- Witness for the amended C7 at the concrete single-attempt failure. -/
theorem c7_witness :
    route embed7 sim1 idx7 filler7 meta7 "run ls" ["shell"] =
      RouteDecision.ToolFailed
        ("Could not extract parameters for " ++ "shell" ++ ": "
          ++ "LLM API error: connection refused") :=
  c7_toolfailed_note_embeds_last_error embed7 sim1 idx7 filler7 meta7 "run ls" ["shell"]
    ⟨"shell", 1⟩
    { description := "Shell execution",
      xml_template := "<ShellRequest><command/></ShellRequest>",
      payload_tag := "ShellRequest" }
    "shell" "LLM API error: connection refused" (by decide) (by decide) (by decide)

/-- An inventory with no segments. -/
def inv0 : ContextInventory :=
  { thread_id := "t1", segments := [], active_count := 0, shelved_count := 0,
    total_bytes := 0, active_bytes := 0 }

/-- A message of 499 ASCII characters followed by one two-byte character:
501 bytes, so byte 500 falls inside the last character. -/
def msg0 : Message :=
  { role := "user", content := String.mk (List.replicate 499 'a' ++ ['é']) }

set_option maxRecDepth 40000 in
/-- Claim C8 at the failing input: the message content is over 500 bytes
and byte 500 is not a character boundary, so Rust's `&s[..500]` in
`truncate` panics and `build_curation_prompt` does not return normally
(the panic is modelled as `none`). -/
theorem c8_curation_prompt_panics :
    500 < utf8Len msg0.content.toList ∧
    truncate msg0.content 500 = none ∧
    build_curation_prompt inv0 [msg0] 8000 = none := by
  have ht : truncate msg0.content 500 = none := by decide
  have hm : msgLine msg0 = none := by simp [msgLine, ht]
  refine ⟨by decide, ht, ?_⟩
  simp [build_curation_prompt, List.mapM, List.mapM.loop, hm]

/-! ### Helper lemmas for the search and index invariants -/

/-- `max_by` yields the fold seed or an element of the list. -/
lemma foldl_maxStep_mem (l : List MatchResult) :
    ∀ (acc : Option MatchResult) (r : MatchResult),
      l.foldl maxStep acc = some r → acc = some r ∨ r ∈ l := by
  induction l with
  | nil => exact fun acc r h => Or.inl h
  | cons x xs ih =>
    intro acc r h
    rcases ih (maxStep acc x) r h with h1 | h2
    · cases acc with
      | none =>
        simp only [maxStep, Option.some.injEq] at h1
        exact Or.inr (by simp [h1])
      | some m =>
        by_cases hc : x.score < m.score
        · simp only [maxStep, if_pos hc, Option.some.injEq] at h1
          exact Or.inl (by simp [h1])
        · simp only [maxStep, if_neg hc, Option.some.injEq] at h1
          exact Or.inr (by simp [h1])
    · exact Or.inr (List.mem_cons_of_mem _ h2)

/-- `max_by` over a list without a seed yields an element of the list. -/
lemma maxByLast_mem {l : List MatchResult} {r : MatchResult} (h : maxByLast l = some r) :
    r ∈ l := by
  rcases foldl_maxStep_mem l none r h with h1 | h2
  · exact absurd h1 (by simp)
  · exact h2

/-- Claim C2: `search_filtered` with an empty allow-list returns no match;
with any allow-list a returned match's name is a member of it; and `route`
with an empty `allowed_tools` list is a `Response`. These hold for every
scoring function, in particular the f32 cosine of the source. -/
theorem c2_router_security_filter :
    (∀ (sim : List Rat → List Rat → Rat) (idx : EmbeddingIndex) (q : List Rat),
      idx.search_filtered sim q [] = none) ∧
    (∀ (sim : List Rat → List Rat → Rat) (idx : EmbeddingIndex) (q : List Rat)
      (allowed : List String) (r : MatchResult),
      idx.search_filtered sim q allowed = some r → r.name ∈ allowed) ∧
    (∀ (embedFn : String → List Rat) (sim : List Rat → List Rat → Rat)
      (idx : EmbeddingIndex)
      (filler : String → String → String → String → String → FormFillResult)
      (meta : List (String × ToolMetadata)) (text : String),
      route embedFn sim idx filler meta text [] = RouteDecision.Response) := by
  refine ⟨fun _ _ _ => rfl, ?_, fun _ _ _ _ _ _ => rfl⟩
  intro sim idx q allowed r h
  cases allowed with
  | nil => simp [EmbeddingIndex.search_filtered] at h
  | cons a as =>
    simp only [EmbeddingIndex.search_filtered, List.isEmpty_cons, Bool.false_eq_true,
      if_false, EmbeddingIndex.best_match] at h
    have hmem := maxByLast_mem h
    rw [List.mem_filter] at hmem
    obtain ⟨hmap, _⟩ := hmem
    rw [List.mem_map] at hmap
    obtain ⟨e, he, hre⟩ := hmap
    rw [List.mem_filter] at he
    obtain ⟨_, hpred⟩ := he
    simp only [List.isEmpty_cons, Bool.not_false, Bool.not_true, Bool.false_or] at hpred
    cases hre
    simpa using hpred

/-- Witness for C2 at a concrete index: the empty allow-list yields no
match, and a match found under `["shell"]` is named within it. -/
theorem c2_witness :
    EmbeddingIndex.search_filtered idx7 sim1 [1] [] = none ∧
    ("shell" : String) ∈ ["shell"] :=
  ⟨c2_router_security_filter.1 sim1 idx7 [1],
   c2_router_security_filter.2.1 sim1 idx7 [1] ["shell"] ⟨"shell", 1⟩ (by decide)⟩

/-- The entry names after a register: the old names without the registered
one, then the registered name at the end. -/
lemma names_register (l : List (String × List Rat)) (name : String) (em : List Rat) :
    ((l.filter (fun e => e.1 != name)) ++ [(name, em)]).map Prod.fst
      = ((l.map Prod.fst).filter (fun n => n != name)) ++ [name] := by
  induction l with
  | nil => rfl
  | cons x xs ih =>
    cases hx : (x.1 != name) with
    | true => simp [List.filter_cons, hx, ih]
    | false => simp [List.filter_cons, hx, ih]

/-- Register keeps the entry names duplicate-free. -/
lemma nodup_names_register (idx : EmbeddingIndex) (name : String) (em : List Rat)
    (h : (idx.entries.map Prod.fst).Nodup) :
    (((idx.register name em).entries).map Prod.fst).Nodup := by
  show ((idx.entries.filter (fun e => e.1 != name) ++ [(name, em)]).map Prod.fst).Nodup
  rw [names_register]
  refine List.Nodup.append (h.filter _) (List.nodup_singleton name) ?_
  intro a ha hb
  rw [List.mem_singleton] at hb
  subst hb
  have := List.of_mem_filter ha
  simp at this

/-- Remove keeps the entry names duplicate-free. -/
lemma nodup_names_remove (idx : EmbeddingIndex) (name : String)
    (h : (idx.entries.map Prod.fst).Nodup) :
    (((idx.remove name).entries).map Prod.fst).Nodup := by
  show ((idx.entries.filter (fun e => e.1 != name)).map Prod.fst).Nodup
  have : (idx.entries.filter (fun e => e.1 != name)).Sublist idx.entries :=
    List.filter_sublist _
  exact h.sublist (this.map Prod.fst)

/-- Every register/remove step keeps the entry names duplicate-free. -/
lemma nodup_names_applyOp (idx : EmbeddingIndex) (op : IndexOp)
    (h : (idx.entries.map Prod.fst).Nodup) :
    (((applyOp idx op).entries).map Prod.fst).Nodup := by
  cases op with
  | reg name em => exact nodup_names_register idx name em h
  | rem name => exact nodup_names_remove idx name h

/-- Any sequence of register/remove steps keeps the names duplicate-free. -/
lemma nodup_names_applyOps (ops : List IndexOp) :
    ∀ (idx : EmbeddingIndex), (idx.entries.map Prod.fst).Nodup →
      (((applyOps ops idx).entries).map Prod.fst).Nodup := by
  induction ops with
  | nil => exact fun idx h => h
  | cons o os ih => exact fun idx h => ih (applyOp idx o) (nodup_names_applyOp idx o h)

/-- Filtering away a name that is absent changes nothing. -/
lemma filter_ne_of_not_mem (l : List (String × List Rat)) (name : String)
    (h : name ∉ l.map Prod.fst) : l.filter (fun e => e.1 != name) = l := by
  induction l with
  | nil => rfl
  | cons x xs ih =>
    simp only [List.map_cons, List.mem_cons, not_or] at h
    obtain ⟨h1, h2⟩ := h
    have hb : (x.1 != name) = true := by
      simp only [bne_iff_ne, ne_eq]
      exact fun hh => h1 hh.symm
    rw [List.filter_cons, if_pos hb, ih h2]

/-- With duplicate-free names, filtering away a present name removes
exactly one entry. -/
lemma length_filter_ne_of_mem (l : List (String × List Rat)) (name : String)
    (hnd : (l.map Prod.fst).Nodup) (hmem : name ∈ l.map Prod.fst) :
    (l.filter (fun e => e.1 != name)).length + 1 = l.length := by
  induction l with
  | nil => simp at hmem
  | cons x xs ih =>
    rw [List.map_cons, List.nodup_cons] at hnd
    rw [List.map_cons] at hmem
    obtain ⟨hx, hnd2⟩ := hnd
    by_cases h : x.1 = name
    · subst h
      rw [List.filter_cons, if_neg (by simp), filter_ne_of_not_mem xs x.1 hx]
      simp
    · have hmem2 : name ∈ xs.map Prod.fst := by
        rcases List.mem_cons.mp hmem with h1 | h2
        · exact absurd h1.symm h
        · exact h2
      rw [List.filter_cons, if_pos (by simp only [bne_iff_ne, ne_eq]; exact h)]
      have := ih hnd2 hmem2
      simp only [List.length_cons]
      omega

/-- `find?` skips a prefix in which nothing matches. -/
lemma find?_none_append {α : Type} {p : α → Bool} (l1 l2 : List α)
    (h : l1.find? p = none) : (l1 ++ l2).find? p = l2.find? p := by
  induction l1 with
  | nil => rfl
  | cons x xs ih =>
    cases hx : p x with
    | true => rw [List.find?_cons_of_pos _ hx] at h; cases h
    | false =>
      rw [List.find?_cons_of_neg _ (by simp [hx])] at h
      rw [List.cons_append, List.find?_cons_of_neg _ (by simp [hx])]
      exact ih h

/-- After filtering a name away, `find?` for that name yields nothing. -/
lemma find?_filter_ne (l : List (String × List Rat)) (name : String) :
    (l.filter (fun e => e.1 != name)).find? (fun e => e.1 == name) = none := by
  rw [List.find?_eq_none]
  intro x hx
  have := List.of_mem_filter hx
  simp only [bne_iff_ne, ne_eq] at this
  simp [this]

/-- Claim C10: from a fresh index, any sequence of register and remove
operations leaves the entry names duplicate-free — at most one entry per
name; and registering an already-present name replaces its embedding
without growing the index. -/
theorem c10_register_replaces_and_names_unique :
    (∀ (thr : Rat) (ops : List IndexOp),
      (((applyOps ops (EmbeddingIndex.new thr)).entries).map Prod.fst).Nodup) ∧
    (∀ (idx : EmbeddingIndex) (name : String) (em : List Rat),
      (idx.entries.map Prod.fst).Nodup → name ∈ idx.entries.map Prod.fst →
        (idx.register name em).entries.length = idx.entries.length ∧
        lookupEmb (idx.register name em) name = some em) := by
  constructor
  · exact fun thr ops => nodup_names_applyOps ops (EmbeddingIndex.new thr) (by simp [EmbeddingIndex.new])
  · intro idx name em hnd hmem
    constructor
    · show ((idx.entries.filter (fun e => e.1 != name)) ++ [(name, em)]).length
        = idx.entries.length
      rw [List.length_append]
      have := length_filter_ne_of_mem idx.entries name hnd hmem
      simp only [List.length_singleton]
      omega
    · show ((((idx.entries.filter (fun e => e.1 != name)) ++ [(name, em)]).find?
        (fun e => e.1 == name)).map Prod.snd) = some em
      rw [find?_none_append _ _ (find?_filter_ne idx.entries name)]
      simp

/-- Witness for C10 at a concrete index: re-registering `shell` keeps one
entry and stores the new embedding. -/
theorem c10_witness :
    (EmbeddingIndex.register { entries := [("shell", [1])], threshold := 0 } "shell" [2]).entries.length = 1 ∧
    lookupEmb (EmbeddingIndex.register { entries := [("shell", [1])], threshold := 0 } "shell" [2]) "shell" = some [2] :=
  c10_register_replaces_and_names_unique.2 { entries := [("shell", [1])], threshold := 0 }
    "shell" [2] (by decide) (by decide)

end AgentOS
